import Mathlib

/-!
Verification of the Tangent tuning-engine coordination core.

The definitions below are a shallow embedding of the TypeScript sources:
  - src/unnamed/part_005           (tuning schema: event bus, detectValueType)
  - src/packages/vite/src/state-store.ts   (TangentStateStore)
  - src/packages/vite/src/index.ts         (dev-server middleware)
  - src/packages/core/src/context/TangentContext.tsx (provider facade)
  - src/packages/mcp/src/server.ts         (tangent_save_all tool)

JavaScript values of type number | string | boolean are modelled by `TValue`
(numbers as `Int`; none of the verified properties depends on float
arithmetic).  JavaScript objects used as string-keyed records are modelled as
association lists in insertion order, matching object spread and `Map`
update semantics.  Callback environments (event listeners that may throw,
persist calls that may fail) are modelled as boolean-valued oracles.
-/

namespace Tangent

/-- A JavaScript value of type number, string or boolean. -/
inductive TValue where
  | num (n : Int)
  | str (s : String)
  | bool (b : Bool)
deriving DecidableEq, Repr

/-- The TuningValueType union of the schema: number, string, boolean, color,
gradient, boxshadow, easing.  The spec calls `string` "text",
`boxshadow` "box-shadow" and `easing` "easing-curve". -/
inductive TuningValueType where
  | number
  | string
  | boolean
  | color
  | gradient
  | boxshadow
  | easing
deriving DecidableEq, Repr

/-- Who initiated an event: TuningEventSource = "human" | "agent". -/
inductive Source where
  | human
  | agent
deriving DecidableEq, Repr

/-! ## String primitives

JavaScript string operations used by `detectValueType`, modelled over
`List Char`.  `toLowerCase` is modelled on the ASCII range, which covers
every key and literal the classifier inspects. -/

/-- ASCII lower-casing of one character (model of the effect of
`String.prototype.toLowerCase` on ASCII input). -/
def lowerChar (c : Char) : Char :=
  if 'A' ≤ c ∧ c ≤ 'Z' then Char.ofNat (c.toNat + 32) else c

/-- Model of `key.toLowerCase()`. -/
def strToLower (s : String) : List Char :=
  s.toList.map lowerChar

/-- Model of `a.includes(b)` on character lists: `b` occurs contiguously in
`a` (the empty needle always matches, as in JavaScript). -/
def listIncludes : List Char → List Char → Bool
  | _, [] => true
  | [], _ :: _ => false
  | c :: cs, sub => sub.isPrefixOf (c :: cs) || listIncludes cs sub

/-- Model of `a.includes(b)` on strings. -/
def strIncludes (a b : String) : Bool :=
  listIncludes a.toList b.toList

/-- `a.includes(b)` where `a` is an already lower-cased character list. -/
def lowerIncludes (a : List Char) (b : String) : Bool :=
  listIncludes a b.toList

/-- Model of `a.startsWith(b)`. -/
def strStartsWith (a b : String) : Bool :=
  b.toList.isPrefixOf a.toList

/-- The JavaScript regular-expression digit class `\d`, i.e. [0-9]. -/
def jsDigit (c : Char) : Bool :=
  '0' ≤ c ∧ c ≤ '9'

/-- The JavaScript regular-expression whitespace class `\s`:
tab, line feed, vertical tab, form feed, carriage return, space, no-break
space, ogham space mark, the U+2000 - U+200A spaces, line separator,
paragraph separator, narrow no-break space, medium mathematical space,
ideographic space and the byte-order mark. -/
def jsSpace (c : Char) : Bool :=
  [' ', '\t', '\n', '\u000B', '\u000C', '\r', '\u00A0', '\u1680',
   '\u2028', '\u2029', '\u202F', '\u205F', '\u3000', '\uFEFF'].contains c ||
  ('\u2000' ≤ c && c ≤ '\u200A')

/-- Consume one or more characters satisfying `p`; return the remaining
characters on success (greedy, as a regex `+` over a fixed class). -/
def chompMany1 (p : Char → Bool) (cs : List Char) : Option (List Char) :=
  match cs with
  | [] => none
  | c :: rest =>
    if p c then some (rest.dropWhile p) else none

/-- Consume the literal characters of `lit`. -/
def chompLit : List Char → List Char → Option (List Char)
  | [], cs => some cs
  | _ :: _, [] => none
  | l :: ls, c :: cs => if c = l then chompLit ls cs else none

/-- One shadow-offset component: `-?\d+px` (the sign only when `neg`). -/
def chompPx (neg : Bool) (cs : List Char) : Option (List Char) :=
  let cs1 := if neg then (match cs with
    | '-' :: rest => rest
    | _ => cs) else cs
  match chompMany1 jsDigit cs1 with
  | none => none
  | some cs2 => chompLit ['p', 'x'] cs2

/-- Model of `/^(inset\s+)?-?\d+px\s+-?\d+px\s+\d+px/.test(value)`: the
box-shadow numeric-triple heuristic of `detectValueType`.  The classes of
adjacent regex atoms are disjoint, so the greedy left-to-right parse below is
equivalent to the backtracking regex. -/
def shadowTripleTest (value : String) : Bool :=
  let cs0 := value.toList
  -- optional group (inset\s+): if "inset" is not followed by whitespace the
  -- group fails and matching restarts from the beginning of the string
  let cs1 :=
    match chompLit ['i', 'n', 's', 'e', 't'] cs0 with
    | some rest =>
      match chompMany1 jsSpace rest with
      | some rest1 => rest1
      | none => cs0
    | none => cs0
  (do
    let a ← chompPx true cs1
    let b ← chompMany1 jsSpace a
    let c ← chompPx true b
    let d ← chompMany1 jsSpace c
    let _ ← chompPx false d
    pure ()).isSome

/-- The known easing keywords of `detectValueType`. -/
def easingKeywords : List String :=
  ["linear", "ease", "ease-in", "ease-out", "ease-in-out"]

/-! ## detectValueType (src/unnamed/part_005, lines 174-203)

The two-armed TypeScript `if (easingish-key) { if (easing-value) return
"easing" }` falls through to the subsequent checks when the inner test
fails; with an identical continuation this is the conjunction of the two
tests, which is how it is written below. -/

/-- Model of `detectValueType(value, key)` from the tuning schema. -/
def detectValueType (value : TValue) (key : String) : TuningValueType :=
  match value with
  | .num _ => .number
  | .bool _ => .boolean
  | .str v =>
    let keyLower := strToLower key
    if lowerIncludes keyLower "shadow" then .boxshadow
    else if lowerIncludes keyLower "gradient" then .gradient
    else if (lowerIncludes keyLower "easing" || lowerIncludes keyLower "timing" ||
             lowerIncludes keyLower "transition") &&
            (strIncludes v "cubic-bezier" || easingKeywords.contains v) then .easing
    else if strIncludes v "linear-gradient" || strIncludes v "radial-gradient" then .gradient
    else if shadowTripleTest v then .boxshadow
    else if strStartsWith v "#" || strStartsWith v "rgb" || strStartsWith v "hsl" then .color
    else if strIncludes v "cubic-bezier" || easingKeywords.contains v then .easing
    else .string

/-- The classification in the priority order stated by the specification
(section 4.7): boolean, number, then string heuristics in the order
key-shadow, key-gradient OR gradient-valued, easing-key AND easing-value,
shadow triple, color marker, otherwise text.  Written from the words of the
spec, to be compared against `detectValueType`. -/
def classifySpecOrder (value : TValue) (key : String) : TuningValueType :=
  match value with
  | .bool _ => .boolean
  | .num _ => .number
  | .str v =>
    let keyLower := strToLower key
    if lowerIncludes keyLower "shadow" then .boxshadow
    else if lowerIncludes keyLower "gradient" ||
            strIncludes v "linear-gradient" || strIncludes v "radial-gradient" then .gradient
    else if (lowerIncludes keyLower "easing" || lowerIncludes keyLower "timing" ||
             lowerIncludes keyLower "transition") &&
            (strIncludes v "cubic-bezier" || easingKeywords.contains v) then .easing
    else if shadowTripleTest v then .boxshadow
    else if strStartsWith v "#" || strStartsWith v "rgb" || strStartsWith v "hsl" then .color
    else .string

/-- The classification in the order the code actually evaluates: the
gradient heuristic is split around the easing check (key-name part before,
value-pattern part after), and a second easing fallback (bezier pattern or
easing keyword, with no condition on the key) runs after the color check,
ahead of the text default. -/
def classifyCodeOrder (value : TValue) (key : String) : TuningValueType :=
  match value with
  | .num _ => .number
  | .bool _ => .boolean
  | .str v =>
    let keyLower := strToLower key
    if lowerIncludes keyLower "shadow" then .boxshadow
    else if lowerIncludes keyLower "gradient" then .gradient
    else if (lowerIncludes keyLower "easing" || lowerIncludes keyLower "timing" ||
             lowerIncludes keyLower "transition") &&
            (strIncludes v "cubic-bezier" || easingKeywords.contains v) then .easing
    else if strIncludes v "linear-gradient" || strIncludes v "radial-gradient" then .gradient
    else if shadowTripleTest v then .boxshadow
    else if strStartsWith v "#" || strStartsWith v "rgb" || strStartsWith v "hsl" then .color
    else if strIncludes v "cubic-bezier" || easingKeywords.contains v then .easing
    else .string

/-! ## Shared event data -/

/-- A property snapshot inside registration payloads (TuningProperty). -/
structure TuningProperty where
  key : String
  value : TValue
  valueType : TuningValueType
  sourceValue : Option TValue
deriving DecidableEq, Repr

/-- Suggestion status: pending, accepted or rejected. -/
inductive SugStatus where
  | pending
  | accepted
  | rejected
deriving DecidableEq, Repr

/-- StoredSuggestion of the state store (and AgentSuggestion of the schema). -/
structure StoredSuggestion where
  id : String
  targetId : String
  key : String
  suggestedValue : TValue
  reason : String
  status : SugStatus
  timestamp : Nat
deriving DecidableEq, Repr

/-- Structured event payloads.  The middleware treats payloads as untyped
`Record<string, unknown>` data; the constructors below cover the payload
shapes the embedded operations build, plus `raw` for arbitrary wire data. -/
inductive Payload where
  | valueChanged (id filePath key : String) (oldValue : Option TValue)
      (newValue : TValue) (valueType : TuningValueType)
  | valueSaved (id filePath key : String) (value : TValue)
  | valueReset (id filePath : String) (keys : List String)
  | registrationData (id filePath : String) (properties : List TuningProperty)
  | suggestionData (s : StoredSuggestion)
  | raw (tag : Nat)
deriving DecidableEq, Repr

/-! ## Client event bus (src/unnamed/part_005, lines 139-170)

Listeners are identified by naturals; the behaviour of a listener callback is
an oracle `throws : Nat → event → Bool` (true means the callback throws when
invoked on that event).  Each operation returns, besides the new state, the
list of listeners that were invoked with the event. -/

/-- In-browser event with the source attribution field. -/
structure TuningEvent where
  eventType : String
  timestamp : Nat
  sequence : Nat
  source : Source
  payload : Payload
deriving DecidableEq, Repr

/-- The module-level mutable state of the schema event bus: the `sequence`
counter and the `listeners` set. -/
structure BusState where
  sequence : Nat
  listeners : List Nat
deriving DecidableEq, Repr

/-- Model of `emitTuningEvent(type, payload, source)`.  The `forEach` over the
listener set wraps each call in try/catch: every listener is invoked with the
event, and a throw is only logged — the listener set is left unchanged.
Returns the new state, the created event and the invoked listeners. -/
def emitTuningEvent (_throws : Nat → TuningEvent → Bool) (st : BusState)
    (eventType : String) (payload : Payload) (source : Source) (now : Nat) :
    BusState × TuningEvent × List Nat :=
  let ev : TuningEvent :=
    { eventType := eventType, timestamp := now, sequence := st.sequence + 1,
      source := source, payload := payload }
  ({ st with sequence := st.sequence + 1 }, ev, st.listeners)

/-- One append request: the arguments of one event-appending call. -/
structure AppendReq where
  eventType : String
  payload : Payload
  source : Source
  now : Nat
deriving DecidableEq, Repr

/-- Run a sequence of `emitTuningEvent` calls, collecting each returned event
with the listeners invoked for it. -/
def emitMany (throws : Nat → TuningEvent → Bool) (st : BusState) :
    List AppendReq → BusState × List (TuningEvent × List Nat)
  | [] => (st, [])
  | r :: rest =>
    let one := emitTuningEvent throws st r.eventType r.payload r.source r.now
    let more := emitMany throws one.1 rest
    (more.1, one.2 :: more.2)

/-! ## Server state store (src/packages/vite/src/state-store.ts) -/

/-- StoredEvent: the event record kept by `TangentStateStore`.  It has no
origin/source field. -/
structure StoredEvent where
  eventType : String
  timestamp : Nat
  sequence : Nat
  payload : Payload
deriving DecidableEq, Repr

/-- StoredRegistration properties (key, value, type, sourceValue?); the
server keeps the inferred type as a plain string. -/
structure StoredProp where
  key : String
  value : TValue
  propType : String
  sourceValue : Option TValue
deriving DecidableEq, Repr

/-- StoredRegistration as synced from the browser. -/
structure StoredRegistration where
  id : String
  filePath : String
  properties : List StoredProp
  hasUnsavedChanges : Bool
deriving DecidableEq, Repr

/-- The fields of one `TangentStateStore` instance. -/
structure StoreState where
  registrations : List (String × StoredRegistration)
  events : List StoredEvent
  suggestions : List StoredSuggestion
  listeners : List Nat
  sequence : Nat
deriving DecidableEq, Repr

/-- A freshly constructed store (all collections empty, sequence 0), with a
given set of SSE listeners already subscribed via `onEvent`. -/
def initStore (listeners : List Nat) : StoreState :=
  { registrations := [], events := [], suggestions := [],
    listeners := listeners, sequence := 0 }

/-- MAX_EVENTS: the ring-buffer cap of the store. -/
def MAX_EVENTS : Nat := 500

/-- The ring-buffer push of `recordEvent`: append, then keep the last
MAX_EVENTS entries (`this.events.slice(-MAX_EVENTS)`). -/
def ringAppend (es : List StoredEvent) (e : StoredEvent) : List StoredEvent :=
  let es1 := es ++ [e]
  if es1.length > MAX_EVENTS then es1.drop (es1.length - MAX_EVENTS) else es1

/-- Model of `TangentStateStore.recordEvent`.  Builds the event from
its argument record (type and payload only), assigns `++this.sequence`, pushes
into the ring buffer, then notifies listeners: the `for..of` over the Set
wraps each call in try/catch and deletes a listener that throws.  Every
listener present at call time is invoked once with the event.  Returns the
new state, the stored event and the invoked listeners. -/
def recordEvent (throws : Nat → StoredEvent → Bool) (st : StoreState)
    (eventType : String) (payload : Payload) (now : Nat) :
    StoreState × StoredEvent × List Nat :=
  let ev : StoredEvent :=
    { eventType := eventType, timestamp := now, sequence := st.sequence + 1,
      payload := payload }
  ({ st with sequence := st.sequence + 1,
             events := ringAppend st.events ev,
             listeners := st.listeners.filter (fun l => !(throws l ev)) },
   ev, st.listeners)

/-- Run a sequence of `recordEvent` calls, collecting each returned event with
the listeners invoked for it.  The `source` field of a request is ignored:
the store does not take one. -/
def recordMany (throws : Nat → StoredEvent → Bool) (st : StoreState) :
    List AppendReq → StoreState × List (StoredEvent × List Nat)
  | [] => (st, [])
  | r :: rest =>
    let one := recordEvent throws st r.eventType r.payload r.now
    let more := recordMany throws one.1 rest
    (more.1, one.2 :: more.2)

/-- Model of `getEvents(sinceSequence = 0)`: retained events with a larger
sequence number. -/
def getEvents (st : StoreState) (sinceSequence : Nat := 0) : List StoredEvent :=
  st.events.filter (fun e => sinceSequence < e.sequence)

/-- Model of the POST `/__tangent/events` middleware branch
(src/packages/vite/src/index.ts, lines 145-159): the browser posts a full
TuningEvent, and the handler calls `store.recordEvent(event)`, which reads
only the `type` and `payload` fields of the posted object. -/
def postEventFromBrowser (throws : Nat → StoredEvent → Bool) (st : StoreState)
    (e : TuningEvent) (now : Nat) : StoreState × StoredEvent × List Nat :=
  recordEvent throws st e.eventType e.payload now

/-- Model of `addSuggestion`: assigns a generated id (passed in as `newId`,
standing for the Date.now/random generation), stores status pending, and
emits a `suggestion.created` event whose payload is the stored suggestion. -/
def addSuggestion (throws : Nat → StoredEvent → Bool) (st : StoreState)
    (targetId key : String) (suggestedValue : TValue) (reason : String)
    (newId : String) (now : Nat) : StoreState × StoredSuggestion :=
  let stored : StoredSuggestion :=
    { id := newId, targetId := targetId, key := key,
      suggestedValue := suggestedValue, reason := reason,
      status := .pending, timestamp := now }
  let st1 := { st with suggestions := st.suggestions ++ [stored] }
  ((recordEvent throws st1 "suggestion.created" (.suggestionData stored) now).1, stored)

/-- Model of `getSuggestions(status?)`. -/
def getSuggestions (st : StoreState) (status : Option SugStatus := none) :
    List StoredSuggestion :=
  match status with
  | some s => st.suggestions.filter (fun t => t.status = s)
  | none => st.suggestions

/-- The outcome chosen when resolving a suggestion. -/
inductive Resolution where
  | accepted
  | rejected
deriving DecidableEq, Repr

/-- The status a resolution writes. -/
def Resolution.toStatus : Resolution → SugStatus
  | .accepted => .accepted
  | .rejected => .rejected

/-- The string interpolated into the emitted event type. -/
def Resolution.toName : Resolution → String
  | .accepted => "accepted"
  | .rejected => "rejected"

/-- Replace the first list element satisfying `p` by `f` of it. -/
def replaceFirst (p : α → Bool) (f : α → α) : List α → List α
  | [] => []
  | x :: xs => if p x then f x :: xs else x :: replaceFirst p f xs

/-- Model of `updateSuggestionStatus(id, status)`: finds the first suggestion
with the given id; if found, sets its status (whatever the previous status
was), emits a `suggestion.accepted` / `suggestion.rejected` event carrying
the mutated suggestion, and returns true; otherwise returns false. -/
def updateSuggestionStatus (throws : Nat → StoredEvent → Bool) (st : StoreState)
    (id : String) (res : Resolution) (now : Nat) : StoreState × Bool :=
  match st.suggestions.find? (fun s => s.id = id) with
  | none => (st, false)
  | some s =>
    let s1 := { s with status := res.toStatus }
    let sugs := replaceFirst (fun t => t.id = id)
      (fun t => { t with status := res.toStatus }) st.suggestions
    let st1 := { st with suggestions := sugs }
    ((recordEvent throws st1 ("suggestion." ++ res.toName) (.suggestionData s1) now).1, true)

/-! ## Association lists

String-keyed records and Maps, in insertion order.  `alSet` updates an
existing key in place and appends a missing key at the end, matching both
`{ ...obj, [key]: value }` on objects and `map.set` on Maps. -/

/-- First value bound to `key`, if any. -/
def alGet {α : Type} : List (String × α) → String → Option α
  | [], _ => none
  | (k, v) :: rest, key => if k = key then some v else alGet rest key

/-- Bind `key` to `v`: overwrite in place, or append when absent. -/
def alSet {α : Type} : List (String × α) → String → α → List (String × α)
  | [], key, v => [(key, v)]
  | (k, w) :: rest, key, v =>
    if k = key then (k, v) :: rest else (k, w) :: alSet rest key v

/-! ## Provider facade (src/packages/core/src/context/TangentContext.tsx)

The provider keeps React state (the registrations Map), shares the
module-level bus of the schema (its sequence counter; the events emitted on
it are collected in a log), and talks to two module-level helpers: the
stored-config map (the configStore module, src/unnamed/part_004) and the
history stacks, whose source file is not part of this tree and is therefore
modelled from the spec. -/

/-- A config object: key to value, in insertion order. -/
abbrev Config := List (String × TValue)

/-- The client-side TangentRegistration entry kept in the provider Map
(the callback fields `onUpdate` / `onSave` are modelled as environments of
the operations that invoke them). -/
structure Registration where
  filePath : String
  originalConfig : Config
  currentConfig : Config
  sourceConfig : Config
deriving DecidableEq, Repr

/-- A history entry: `{registrationId, key, oldValue, newValue}`. -/
structure HistoryEntry where
  id : String
  key : String
  oldValue : TValue
  newValue : TValue
deriving DecidableEq, Repr

/-- One unsaved (dirty) change as computed by the provider on each render. -/
structure UnsavedChange where
  id : String
  key : String
  oldValue : Option TValue
  newValue : TValue
deriving DecidableEq, Repr

/-- The provider state: the registrations Map, the module-level stored-config
map and history stacks, and the bus (sequence counter plus a log of the
events emitted on it). -/
structure CtxState where
  regs : List (String × Registration)
  storedCfg : List (String × Config)
  undoStack : List HistoryEntry
  redoStack : List HistoryEntry
  busSeq : Nat
  busEvents : List TuningEvent
deriving DecidableEq, Repr

/-- The provider state at mount: everything empty. -/
def initCtx : CtxState :=
  { regs := [], storedCfg := [], undoStack := [], redoStack := [],
    busSeq := 0, busEvents := [] }

/-- Emit one event on the module bus from provider code (`emitTuningEvent`
with the default source "human"), recording it in the log. -/
def ctxEmit (st : CtxState) (eventType : String) (payload : Payload) (now : Nat) :
    CtxState :=
  let ev : TuningEvent :=
    { eventType := eventType, timestamp := now, sequence := st.busSeq + 1,
      source := .human, payload := payload }
  { st with busSeq := st.busSeq + 1, busEvents := st.busEvents ++ [ev] }

/-- Model of `getStoredConfig(id)` of the configStore module
(src/unnamed/part_004): `configStore.get(id)`, undefined when the id has no
entry. -/
def getStoredConfig (store : List (String × Config)) (id : String) : Option Config :=
  alGet store id

/-- Model of `setStoredConfig(id, config)` of the configStore module
(src/unnamed/part_004): `configStore.set(id, ...config copied...)` — bind a
copy of the whole config object for the id. -/
def setStoredConfig (store : List (String × Config)) (id : String) (cfg : Config) :
    List (String × Config) :=
  alSet store id cfg

/-- Model of `updateStoredConfig(id, key, value)` of the configStore module
(src/unnamed/part_004): reads the existing entry and, only when one exists,
rebinds it with the key updated (the body is guarded by `if (existing)`);
when the id has no stored entry the write is dropped. -/
def updateStoredConfig (store : List (String × Config)) (id key : String)
    (v : TValue) : List (String × Config) :=
  match alGet store id with
  | some cfg => alSet store id (alSet cfg key v)
  | none => store

/-- Modelled from the spec: `pushHistory` of src/packages/core/src/history, a
module not present in this tree.  The spec (section 3) has entries pushed
onto a single global undo stack in commit order, and any new (non-undo/redo)
mutation clears the redo stack.  Returns the new undo and redo stacks. -/
def pushHistory (undoStack _redoStack : List HistoryEntry) (e : HistoryEntry) :
    List HistoryEntry × List HistoryEntry :=
  (e :: undoStack, [])

/-- The declaration a component makes when it mounts: id, file path and the
declared default values. -/
structure RegistrationInput where
  id : String
  filePath : String
  originalConfig : Config
deriving DecidableEq, Repr

/-- Model of the provider `register` callback: read the stored config for the
id (seeding it with the declared defaults when absent), set the Map entry
with currentConfig restored from the stored config (or a copy of the
defaults) and sourceConfig a copy of the declared defaults, then emit a
`registration.added` event over the restored config — on every call. -/
def ctxRegister (st : CtxState) (r : RegistrationInput) (now : Nat) : CtxState :=
  let storedConfig := getStoredConfig st.storedCfg r.id
  let storedCfg1 :=
    match storedConfig with
    | none => setStoredConfig st.storedCfg r.id r.originalConfig
    | some _ => st.storedCfg
  let config := storedConfig.getD r.originalConfig
  let reg : Registration :=
    { filePath := r.filePath, originalConfig := r.originalConfig,
      currentConfig := config, sourceConfig := r.originalConfig }
  let props := config.map (fun p =>
    { key := p.1, value := p.2, valueType := detectValueType p.2 p.1,
      sourceValue := alGet r.originalConfig p.1 : TuningProperty })
  ctxEmit { st with regs := alSet st.regs r.id reg, storedCfg := storedCfg1 }
    "registration.added" (.registrationData r.id r.filePath props) now

/-- Model of the provider `updateValue(id, key, value, skipHistory)`: reads
the old value from the Map; pushes a history entry when not skipped, the old
value is defined and differs; updates the module store (a write under an id
with no stored entry is dropped by `updateStoredConfig`); sets the key in
currentConfig when the registration exists (adding the key when new); and
emits a `value.changed` event when the registration exists and the old value
differs (including the case where the old value is undefined). -/
def ctxUpdateValue (st : CtxState) (id key : String) (value : TValue)
    (skipHistory : Bool) (now : Nat) : CtxState :=
  let registration := alGet st.regs id
  let oldValue := registration.bind (fun r => alGet r.currentConfig key)
  let histStacks :=
    match oldValue with
    | some ov =>
      if !skipHistory && ov ≠ value then
        pushHistory st.undoStack st.redoStack
          { id := id, key := key, oldValue := ov, newValue := value }
      else (st.undoStack, st.redoStack)
    | none => (st.undoStack, st.redoStack)
  let storedCfg1 := updateStoredConfig st.storedCfg id key value
  let regs1 :=
    match alGet st.regs id with
    | some reg =>
      alSet st.regs id { reg with currentConfig := alSet reg.currentConfig key value }
    | none => st.regs
  let st1 := { st with regs := regs1, storedCfg := storedCfg1, undoStack := histStacks.1, redoStack := histStacks.2 }
  match registration with
  | some reg =>
    if oldValue ≠ some value then
      ctxEmit st1 "value.changed"
        (.valueChanged id reg.filePath key oldValue value (detectValueType value key)) now
    else st1
  | none => st1

/-- The dirty changes the provider derives on each render: for every
registration in Map order and every key of its currentConfig in insertion
order, the pair is dirty when the current value differs from the source
value under that key (also when the source value is undefined). -/
def unsavedChangesOf (regs : List (String × Registration)) : List UnsavedChange :=
  regs.flatMap (fun p =>
    p.2.currentConfig.filterMap (fun q =>
      if alGet p.2.sourceConfig q.1 ≠ some q.2 then
        some { id := p.1, key := q.1, oldValue := alGet p.2.sourceConfig q.1,
               newValue := q.2 }
      else none))

/-- How a `saveAll` run ended: skipped by the guard, completed the loop,
or aborted by a thrown persist error. -/
inductive SaveOutcome where
  | skipped
  | completed
  | errored
deriving DecidableEq, Repr

/-- The observable result of one `saveAll` run: the new registrations Map,
the persist calls attempted, the persist calls that succeeded (with the
value written), and how the run ended.  The TypeScript function itself
returns void — these logs record what it did underway. -/
structure SaveRun where
  regs : List (String × Registration)
  attempted : List (String × String)
  saved : List (String × String × TValue)
  outcome : SaveOutcome
deriving DecidableEq, Repr

/-- The `for (const change of unsavedChanges)` save loop of provider
`saveAll`, inside its single try/catch: each change whose registration is
found triggers one awaited `reg.onSave` call; the first throwing call aborts
the whole loop (later changes are not attempted).  Returns the attempted
calls, the successful calls and whether the loop completed. -/
def ctxSaveLoop (persistFails : String → String → Bool)
    (snapshot : List (String × Registration)) :
    List UnsavedChange → List (String × String) × List (String × String × TValue) × Bool
  | [] => ([], [], true)
  | c :: rest =>
    match alGet snapshot c.id with
    | none => ctxSaveLoop persistFails snapshot rest
    | some _ =>
      if persistFails c.id c.key then ([(c.id, c.key)], [], false)
      else
        let r := ctxSaveLoop persistFails snapshot rest
        ((c.id, c.key) :: r.1, (c.id, c.key, c.newValue) :: r.2.1, r.2.2)

/-- Model of provider `saveAll`.  `snapshot` is the registrations Map the
callback closed over (from which `unsavedChanges` and the per-change lookups
are computed); `live` is the Map at the time the final `setRegistrations`
runs — updates applied while the awaited saves were in flight are visible
there.  Behaviour: when `isSaving` or there are no unsaved changes, return at
once; otherwise run the save loop; when it completes, set
`sourceConfig := currentConfig` on every registration of the live Map; when
it throws, the catch only logs and no sourceConfig is touched. -/
def ctxSaveAllCore (persistFails : String → String → Bool)
    (snapshot live : List (String × Registration)) (isSaving : Bool) : SaveRun :=
  if isSaving || (unsavedChangesOf snapshot).isEmpty then
    { regs := live, attempted := [], saved := [], outcome := .skipped }
  else
    let r := ctxSaveLoop persistFails snapshot (unsavedChangesOf snapshot)
    if r.2.2 then
      { regs := live.map (fun p => (p.1, { p.2 with sourceConfig := p.2.currentConfig })),
        attempted := r.1, saved := r.2.1, outcome := .completed }
    else
      { regs := live, attempted := r.1, saved := r.2.1, outcome := .errored }

/-- Provider `saveAll` in a sequential run (no interleaved writers: the live
Map equals the snapshot), also emitting one `value.saved` event per
successful persist as the loop does. -/
def ctxSaveAllRun (persistFails : String → String → Bool) (st : CtxState)
    (now : Nat) : CtxState :=
  let run := ctxSaveAllCore persistFails st.regs st.regs false
  run.saved.foldl
    (fun s pr =>
      ctxEmit s "value.saved"
        (.valueSaved pr.1 (((alGet st.regs pr.1).map Registration.filePath).getD "")
          pr.2.1 pr.2.2) now)
    { st with regs := run.regs }

/-! ## MCP save-all tool (src/packages/mcp/src/server.ts, lines 205-262) -/

/-- A property is treated as unsaved by `tangent_save_all` when its
sourceValue is present and differs from its value. -/
def mcpPropDirty (p : StoredProp) : Bool :=
  p.sourceValue.isSome && p.sourceValue ≠ some p.value

/-- The (registrationId, key) pairs `tangent_save_all` iterates: every dirty
property of every registration flagged hasUnsavedChanges, in order. -/
def mcpDirtyPairs (regs : List StoredRegistration) : List (String × String) :=
  (regs.filter (fun r => r.hasUnsavedChanges)).flatMap
    (fun r => (r.properties.filter mcpPropDirty).map (fun p => (r.id, p.key)))

/-- The result the MCP tool reports: the count of successful saves and one
error entry per failed key; `attempted` logs every persist call made. -/
structure McpSaveResult where
  savedCount : Nat
  errors : List (String × String)
  attempted : List (String × String)
deriving DecidableEq, Repr

/-- The inner loop of `tangent_save_all` over the properties of one
registration: each dirty property gets its own try/catch around the persist
call, so a failure adds an error entry and the loop continues. -/
def mcpSaveProps (persistFails : String → String → Bool) (id : String)
    (acc : McpSaveResult) : List StoredProp → McpSaveResult
  | [] => acc
  | p :: rest =>
    if mcpPropDirty p then
      if persistFails id p.key then
        mcpSaveProps persistFails id
          { acc with errors := acc.errors ++ [(id, p.key)],
                     attempted := acc.attempted ++ [(id, p.key)] } rest
      else
        mcpSaveProps persistFails id
          { acc with savedCount := acc.savedCount + 1,
                     attempted := acc.attempted ++ [(id, p.key)] } rest
    else mcpSaveProps persistFails id acc rest

/-- Model of the `tangent_save_all` tool body: filter registrations with
unsaved changes and run the per-property save loop over each. -/
def mcpSaveAll (persistFails : String → String → Bool)
    (regs : List StoredRegistration) : McpSaveResult :=
  (regs.filter (fun r => r.hasUnsavedChanges)).foldl
    (fun acc r => mcpSaveProps persistFails r.id acc r.properties)
    { savedCount := 0, errors := [], attempted := [] }

/-! ## Concrete instances used by the closed statements below -/

/-- The state of the module-level event bus right after module load: counter
zero, the given listeners subscribed. -/
def initBus (listeners : List Nat) : BusState :=
  { sequence := 0, listeners := listeners }

/-- An agent-attributed wire event as posted to `/__tangent/events`. -/
def agentWireEvent : TuningEvent :=
  { eventType := "value.changed", timestamp := 10, sequence := 7, source := .agent,
    payload := .valueChanged "hero" "src/Hero.tsx" "padding" (some (.num 60)) (.num 80) .number }

/-- The same wire event attributed to a human. -/
def humanWireEvent : TuningEvent :=
  { agentWireEvent with source := .human }

/-- A suggestion that has already been resolved (accepted). -/
def resolvedSuggestion : StoredSuggestion :=
  { id := "s1", targetId := "hero", key := "padding", suggestedValue := .num 12,
    reason := "contrast", status := .accepted, timestamp := 3 }

/-- A store holding one already-resolved suggestion. -/
def storeWithResolved : StoreState :=
  { registrations := [], events := [], suggestions := [resolvedSuggestion],
    listeners := [], sequence := 5 }

/-- A listener-behaviour oracle under which listener 0 always throws and
every other listener never does. -/
def throwsZero : Nat → StoredEvent → Bool := fun l _ => l == 0

/-- The bus-side analogue of `throwsZero`. -/
def busThrowsZero : Nat → TuningEvent → Bool := fun l _ => l == 0

/-- Two further append requests, used to observe subsequent deliveries. -/
def tailReqs : List AppendReq :=
  [{ eventType := "value.changed", payload := .raw 1, source := .human, now := 2 },
   { eventType := "value.changed", payload := .raw 2, source := .agent, now := 3 }]

/-- A registration with one key, clean. -/
def heroReg : Registration :=
  { filePath := "src/Hero.tsx", originalConfig := [("padding", .num 60)],
    currentConfig := [("padding", .num 60)], sourceConfig := [("padding", .num 60)] }

/-- A provider state holding `heroReg` under id "hero". -/
def heroState : CtxState :=
  { initCtx with regs := [("hero", heroReg)] }

/-- Registration A with one dirty key "a". -/
def dirtyRegA : Registration :=
  { filePath := "src/A.tsx", originalConfig := [("a", .num 1)],
    currentConfig := [("a", .num 2)], sourceConfig := [("a", .num 1)] }

/-- Registration B with one dirty key "b". -/
def dirtyRegB : Registration :=
  { filePath := "src/B.tsx", originalConfig := [("b", .num 1)],
    currentConfig := [("b", .num 3)], sourceConfig := [("b", .num 1)] }

/-- Two registrations, each with one dirty key. -/
def twoDirtySnapshot : List (String × Registration) :=
  [("A", dirtyRegA), ("B", dirtyRegB)]

/-- A persist oracle that fails exactly on registration "A". -/
def failsOnA : String → String → Bool := fun id _ => id == "A"

/-- The component declaration used in the remount scenario. -/
def heroInput : RegistrationInput :=
  { id := "hero", filePath := "src/Hero.tsx", originalConfig := [("padding", .num 60)] }

/-- Remount scenario, step 1: first mount registers the component. -/
def remount1 : CtxState := ctxRegister initCtx heroInput 1

/-- Remount scenario, step 2: the human edits padding to 80. -/
def remount2 : CtxState := ctxUpdateValue remount1 "hero" "padding" (.num 80) false 2

/-- Remount scenario, step 3: saveAll succeeds, so source becomes 80. -/
def remount3 : CtxState := ctxSaveAllRun (fun _ _ => false) remount2 3

/-- Remount scenario, step 4: the component remounts and registers again. -/
def remount4 : CtxState := ctxRegister remount3 heroInput 4

/-- The registrations of `twoDirtySnapshot` as synced server-side, for the
MCP save-all: same two dirty keys. -/
def twoDirtyStored : List StoredRegistration :=
  [{ id := "A", filePath := "src/A.tsx", hasUnsavedChanges := true,
     properties := [{ key := "a", value := .num 2, propType := "number", sourceValue := some (.num 1) }] },
   { id := "B", filePath := "src/B.tsx", hasUnsavedChanges := true,
     properties := [{ key := "b", value := .num 3, propType := "number", sourceValue := some (.num 1) }] }]

/-- A live registrations Map for the mid-flight scenario: padding was bumped
to 100 while the awaited save of 80 was in flight (snapshot dirty at 80). -/
def midFlightLive : List (String × Registration) :=
  [("A", { filePath := "src/A.tsx", originalConfig := [("a", .num 1)],
           currentConfig := [("a", .num 100)], sourceConfig := [("a", .num 1)] })]

/-! ## Theorems -/

/-- Binding a key always makes it readable: lookup after `alSet` on the same
key yields the written value. -/
theorem alGet_alSet_self {α : Type} (l : List (String × α)) (k : String) (v : α) :
    alGet (alSet l k v) k = some v := by
  induction l with
  | nil => simp [alSet, alGet]
  | cons p rest ih =>
    obtain ⟨k1, w⟩ := p
    by_cases h : k1 = k
    · simp [alSet, alGet, h]
    · simp [alSet, alGet, h, ih]

/-- The events returned by a run of `recordEvent` calls are numbered
consecutively from one past the starting counter. -/
theorem recordMany_seq (throws : Nat → StoredEvent → Bool) :
    ∀ (reqs : List AppendReq) (st : StoreState),
      (recordMany throws st reqs).2.map (fun pr => pr.1.sequence) =
        List.range' (st.sequence + 1) reqs.length := by
  intro reqs
  induction reqs with
  | nil => intro st; rfl
  | cons r rest ih =>
    intro st
    simp [recordMany, recordEvent, ih, List.range']

/-- The events returned by a run of `emitTuningEvent` calls are numbered
consecutively from one past the starting counter. -/
theorem emitMany_seq (throws : Nat → TuningEvent → Bool) :
    ∀ (reqs : List AppendReq) (st : BusState),
      (emitMany throws st reqs).2.map (fun pr => pr.1.sequence) =
        List.range' (st.sequence + 1) reqs.length := by
  intro reqs
  induction reqs with
  | nil => intro st; rfl
  | cons r rest ih =>
    intro st
    simp [emitMany, emitTuningEvent, ih, List.range']

/-- C1: on a fresh engine instance, every finite sequence of N
event-appending operations — any mix of human and agent origins, any
listener behaviour — produces events whose sequence numbers are exactly
1..N: assigned at append time, strictly increasing, gapless, with no
duplicates.  This holds both for the server state store (`recordEvent`) and
for the client event bus (`emitTuningEvent`). -/
theorem appended_sequences_are_one_to_N
    (throwsS : Nat → StoredEvent → Bool) (throwsB : Nat → TuningEvent → Bool)
    (storeListeners busListeners : List Nat) (reqs : List AppendReq) :
    (recordMany throwsS (initStore storeListeners) reqs).2.map (fun pr => pr.1.sequence) =
      List.range' 1 reqs.length ∧
    (emitMany throwsB (initBus busListeners) reqs).2.map (fun pr => pr.1.sequence) =
      List.range' 1 reqs.length := by
  constructor
  · simpa [initStore] using recordMany_seq throwsS reqs (initStore storeListeners)
  · simpa [initBus] using emitMany_seq throwsB reqs (initBus busListeners)

/-- C9 counterexample: `detectValueType` does not follow the priority order
stated by the spec.  On key "x" and string value "linear" — which matches
none of the stated heuristics (the key suggests neither shadow, gradient,
nor timing, and the value is no gradient call, shadow triple or color) — the
spec order classifies text, but the function returns easing via a fallback
keyword check the stated order does not contain. -/
theorem classifier_spec_order_counterexample :
    detectValueType (.str "linear") "x" = .easing ∧
    classifySpecOrder (.str "linear") "x" = .string ∧
    detectValueType (.str "linear") "x" ≠ classifySpecOrder (.str "linear") "x" := by
  decide

/-- C9 amended: `detectValueType` is total by construction and follows the
code order of heuristics: boolean, number, then for strings: key contains
"shadow"; key contains "gradient"; timing/easing-suggesting key AND
(bezier pattern or easing keyword); value matches a gradient-function
pattern; shadow-like numeric triple; hex/rgb/hsl prefix; bezier pattern or
easing keyword regardless of the key; otherwise text. -/
theorem classifier_follows_code_order (value : TValue) (key : String) :
    detectValueType value key = classifyCodeOrder value key := by
  cases value <;> rfl

/-- C2 (code bug): the origin attribution is dropped when an event crosses
the wire into the server state store.  Posting two wire events that differ
only in their source field (agent vs human) through the `/__tangent/events`
handler produces identical results — same stored event, same store state,
same deliveries — because `StoredEvent` carries no origin field, so neither
push subscribers nor catch-up readers of the store can recover who caused
the event. -/
theorem origin_dropped_by_store :
    agentWireEvent.source ≠ humanWireEvent.source ∧
    agentWireEvent.eventType = humanWireEvent.eventType ∧
    agentWireEvent.payload = humanWireEvent.payload ∧
    postEventFromBrowser throwsZero (initStore [3]) agentWireEvent 11 =
      postEventFromBrowser throwsZero (initStore [3]) humanWireEvent 11 := by
  decide

/-- C3 counterexample: resolving the already-accepted suggestion "s1" a
second time (now as rejected) does not fail with an AlreadyResolved no-op
error and does not leave the stored status unchanged: the call returns true,
overwrites the status to rejected, and emits a suggestion.rejected event. -/
theorem resolve_twice_overwrites :
    (updateSuggestionStatus throwsZero storeWithResolved "s1" .rejected 9).2 = true ∧
    ((updateSuggestionStatus throwsZero storeWithResolved "s1" .rejected 9).1.suggestions.map
      (fun s => s.status)) = [SugStatus.rejected] ∧
    ((updateSuggestionStatus throwsZero storeWithResolved "s1" .rejected 9).1.events.map
      (fun e => e.eventType)) = ["suggestion.rejected"] := by
  decide

/-- C3 amended: suggestion resolution never checks for a prior resolution.
With an unknown id the call returns false and changes nothing; with a known
id — whatever its current status, pending or already resolved — it returns
true, overwrites the status of the first matching suggestion and appends a
suggestion.accepted / suggestion.rejected event, rather than failing with an
AlreadyResolved no-op error. -/
theorem updateSuggestionStatus_behaviour
    (throws : Nat → StoredEvent → Bool) (st : StoreState) (id : String)
    (res : Resolution) (now : Nat) :
    (st.suggestions.find? (fun t => t.id = id) = none →
      updateSuggestionStatus throws st id res now = (st, false)) ∧
    (∀ s, st.suggestions.find? (fun t => t.id = id) = some s →
      (updateSuggestionStatus throws st id res now).2 = true ∧
      (updateSuggestionStatus throws st id res now).1.suggestions =
        replaceFirst (fun t => t.id = id) (fun t => { t with status := res.toStatus })
          st.suggestions ∧
      (updateSuggestionStatus throws st id res now).1.events =
        ringAppend st.events
          { eventType := "suggestion." ++ res.toName, timestamp := now,
            sequence := st.sequence + 1,
            payload := .suggestionData { s with status := res.toStatus } }) := by
  constructor
  · intro h
    simp [updateSuggestionStatus, h]
  · intro s hs
    simp [updateSuggestionStatus, hs, recordEvent]

/-- C3 amended, witnessed at a concrete input: resolving the
already-accepted suggestion of `storeWithResolved` reports success. -/
theorem updateSuggestionStatus_behaviour_witness :
    (updateSuggestionStatus throwsZero storeWithResolved "s1" .accepted 9).2 = true :=
  ((updateSuggestionStatus_behaviour throwsZero storeWithResolved "s1" .accepted 9).2
    resolvedSuggestion (by decide)).1

/-- A listener outside the subscriber set is never invoked by any later
append on the store. -/
theorem recordMany_not_invoked (throws : Nat → StoredEvent → Bool) (l : Nat) :
    ∀ (reqs : List AppendReq) (st : StoreState), l ∉ st.listeners →
      ∀ pr ∈ (recordMany throws st reqs).2, l ∉ pr.2 := by
  intro reqs
  induction reqs with
  | nil =>
    intro st _ pr hpr
    simp [recordMany] at hpr
  | cons r rest ih =>
    intro st h pr hpr
    simp only [recordMany, recordEvent, List.mem_cons] at hpr
    rcases hpr with hpr | hpr
    · rw [hpr]
      exact h
    · refine ih _ ?_ pr hpr
      intro hmem
      exact h (List.mem_filter.1 hmem).1

/-- A listener whose callback never throws stays subscribed and is invoked
with every event of a store append run. -/
theorem recordMany_all_invoked (throws : Nat → StoredEvent → Bool) (l : Nat)
    (hl : ∀ e, throws l e = false) :
    ∀ (reqs : List AppendReq) (st : StoreState), l ∈ st.listeners →
      ∀ pr ∈ (recordMany throws st reqs).2, l ∈ pr.2 := by
  intro reqs
  induction reqs with
  | nil =>
    intro st _ pr hpr
    simp [recordMany] at hpr
  | cons r rest ih =>
    intro st h pr hpr
    simp only [recordMany, recordEvent, List.mem_cons] at hpr
    rcases hpr with hpr | hpr
    · rw [hpr]
      exact h
    · refine ih _ ?_ pr hpr
      refine List.mem_filter.2 ⟨h, ?_⟩
      simp [hl]

/-- C4 amended: fault isolation differs between the two broadcast paths.
In the server state store, every listener present at append time is invoked
with the event, a listener that throws is deleted from the subscriber set
(so if it throws on every event it is invoked for the first append of a run
and for none of the later ones), and a listener that never throws receives
every event.  On the client event bus, every listener is likewise invoked
with every event, but a throwing listener is only logged and stays
subscribed — the set is never changed by a broadcast. -/
theorem listener_fault_isolation :
    (∀ (throws : Nat → StoredEvent → Bool) (st : StoreState) eventType payload now,
      (recordEvent throws st eventType payload now).2.2 = st.listeners ∧
      (recordEvent throws st eventType payload now).1.listeners =
        st.listeners.filter
          (fun l => !(throws l (recordEvent throws st eventType payload now).2.1))) ∧
    (∀ (throws : Nat → StoredEvent → Bool) (l : Nat) (st : StoreState)
        (r : AppendReq) (rest : List AppendReq),
      l ∈ st.listeners → (∀ e, throws l e = true) →
      l ∈ (recordEvent throws st r.eventType r.payload r.now).2.2 ∧
      ∀ pr ∈ (recordMany throws (recordEvent throws st r.eventType r.payload r.now).1 rest).2,
        l ∉ pr.2) ∧
    (∀ (throws : Nat → StoredEvent → Bool) (l : Nat) (st : StoreState)
        (reqs : List AppendReq),
      l ∈ st.listeners → (∀ e, throws l e = false) →
      ∀ pr ∈ (recordMany throws st reqs).2, l ∈ pr.2) ∧
    (∀ (throws : Nat → TuningEvent → Bool) (st : BusState) eventType payload source now,
      (emitTuningEvent throws st eventType payload source now).2.2 = st.listeners ∧
      (emitTuningEvent throws st eventType payload source now).1.listeners = st.listeners) := by
  refine ⟨fun throws st eventType payload now => ⟨rfl, rfl⟩, ?_, ?_, fun _ _ _ _ _ _ => ⟨rfl, rfl⟩⟩
  · intro throws l st r rest hmem hthrow
    constructor
    · exact hmem
    · refine recordMany_not_invoked throws l rest _ ?_
      intro hin
      have := (List.mem_filter.1 hin).2
      simp [hthrow] at this
  · intro throws l st reqs hmem hok
    exact recordMany_all_invoked throws l hok reqs st hmem

/-- C4 amended, witnessed at a concrete input: with listeners 0 and 1
subscribed to the store and listener 0 throwing on every event, listener 0
is invoked for the first append and for no later one of the run. -/
theorem listener_fault_isolation_witness :
    0 ∈ (recordEvent throwsZero (initStore [0, 1]) "value.changed" (.raw 0) 1).2.2 ∧
    ∀ pr ∈ (recordMany throwsZero
        (recordEvent throwsZero (initStore [0, 1]) "value.changed" (.raw 0) 1).1 tailReqs).2,
      0 ∉ pr.2 :=
  listener_fault_isolation.2.1 throwsZero 0 (initStore [0, 1])
    { eventType := "value.changed", payload := .raw 0, source := .human, now := 1 }
    tailReqs (by decide) (fun _ => rfl)

/-- C4 counterexample: on the client event bus, a listener that throws on
every event is not removed after its first failure: after one emit it is
still subscribed, and the second emit invokes it again. -/
theorem throwing_bus_listener_not_removed :
    (emitTuningEvent busThrowsZero (initBus [0, 1]) "value.changed" (.raw 0) .human 1).1.listeners
      = [0, 1] ∧
    0 ∈ (emitTuningEvent busThrowsZero
          (emitTuningEvent busThrowsZero (initBus [0, 1]) "value.changed" (.raw 0) .human 1).1
          "value.changed" (.raw 1) .agent 2).2.2 := by
  decide


/-- A key that occurs in an association list is found by `alGet`. -/
theorem alGet_isSome_of_mem {α : Type} {l : List (String × α)} {k : String} {x : α}
    (h : (k, x) ∈ l) : (alGet l k).isSome := by
  induction l with
  | nil => simp at h
  | cons p rest ih =>
    obtain ⟨k1, w⟩ := p
    by_cases hk : k1 = k
    · simp [alGet, hk]
    · have h2 : (k, x) ∈ rest := by
        rcases List.mem_cons.1 h with h1 | h1
        · exfalso
          injection h1 with e1 e2
          exact hk e1.symm
        · exact h1
      simpa [alGet, hk] using ih h2

/-- Every dirty change reported by `unsavedChangesOf` names a registration id
that the Map lookup finds. -/
theorem unsaved_id_found (regs : List (String × Registration)) :
    ∀ c ∈ unsavedChangesOf regs, (alGet regs c.id).isSome := by
  intro c hc
  simp only [unsavedChangesOf, List.mem_flatMap] at hc
  obtain ⟨p, hp, hcp⟩ := hc
  simp only [List.mem_filterMap] at hcp
  obtain ⟨q, hq, hqq⟩ := hcp
  by_cases hd : alGet p.2.sourceConfig q.1 ≠ some q.2
  · rw [if_pos hd] at hqq
    injection hqq with h3
    subst h3
    exact alGet_isSome_of_mem (by simpa using hp)
  · rw [if_neg hd] at hqq
    cases hqq

/-- When every change of a batch names a findable registration and the save
loop completes, every change was attempted and saved, in order. -/
theorem ctxSaveLoop_complete (persistFails : String → String → Bool)
    (snapshot : List (String × Registration)) :
    ∀ (chs : List UnsavedChange), (∀ c ∈ chs, (alGet snapshot c.id).isSome) →
      (ctxSaveLoop persistFails snapshot chs).2.2 = true →
      (ctxSaveLoop persistFails snapshot chs).1 = chs.map (fun c => (c.id, c.key)) ∧
      (ctxSaveLoop persistFails snapshot chs).2.1 =
        chs.map (fun c => (c.id, c.key, c.newValue)) := by
  intro chs
  induction chs with
  | nil => intro _ _; exact ⟨rfl, rfl⟩
  | cons c rest ih =>
    intro hfound hok
    have hc := hfound c (List.mem_cons_self c rest)
    obtain ⟨reg, hreg⟩ := Option.isSome_iff_exists.1 hc
    have hrest : ∀ d ∈ rest, (alGet snapshot d.id).isSome :=
      fun d hd => hfound d (List.mem_cons_of_mem c hd)
    by_cases hf : persistFails c.id c.key
    · simp [ctxSaveLoop, hreg, hf] at hok
    · have hok2 : (ctxSaveLoop persistFails snapshot rest).2.2 = true := by
        simpa [ctxSaveLoop, hreg, hf] using hok
      obtain ⟨h1, h2⟩ := ih hrest hok2
      constructor <;> simp [ctxSaveLoop, hreg, hf, h1, h2]

/-- C10: when the provider saveAll runs (dirty snapshot, not already saving)
and its save loop completes without an error, the final update sets
sourceConfig := currentConfig on EVERY registration and key of the live Map
— not only on the dirty pairs it persisted — while the persist calls wrote
exactly the snapshot-dirty pairs with their snapshot values.  A value
changed concurrently while the awaited saves were in flight is therefore
marked clean (current = source) without ever having been written. -/
theorem saveAll_completion_marks_all_clean
    (persistFails : String → String → Bool)
    (snapshot live : List (String × Registration))
    (hne : unsavedChangesOf snapshot ≠ [])
    (hok : (ctxSaveLoop persistFails snapshot (unsavedChangesOf snapshot)).2.2 = true) :
    (ctxSaveAllCore persistFails snapshot live false).regs =
      live.map (fun p => (p.1, { p.2 with sourceConfig := p.2.currentConfig })) ∧
    (ctxSaveAllCore persistFails snapshot live false).saved =
      (unsavedChangesOf snapshot).map (fun c => (c.id, c.key, c.newValue)) ∧
    (ctxSaveAllCore persistFails snapshot live false).outcome = .completed := by
  obtain ⟨h1, h2⟩ :=
    ctxSaveLoop_complete persistFails snapshot (unsavedChangesOf snapshot)
      (unsaved_id_found snapshot) hok
  have hempty : (unsavedChangesOf snapshot).isEmpty = false := by
    cases h : unsavedChangesOf snapshot with
    | nil => exact absurd h hne
    | cons a b => rfl
  refine ⟨?_, ?_, ?_⟩ <;> simp [ctxSaveAllCore, hempty, hok, h2]

/-- C10 witnessed at a concrete input: snapshot has one dirty key (a: 2 over
source 1) and the live Map has meanwhile moved the same key to 100; after
the completed saveAll, the live registration is marked clean at 100 even
though the only persisted write carried the snapshot value 2. -/
theorem saveAll_completion_marks_all_clean_witness :
    (ctxSaveAllCore (fun _ _ => false) [("A", dirtyRegA)] midFlightLive false).regs =
      midFlightLive.map (fun p => (p.1, { p.2 with sourceConfig := p.2.currentConfig })) ∧
    (ctxSaveAllCore (fun _ _ => false) [("A", dirtyRegA)] midFlightLive false).saved =
      (unsavedChangesOf [("A", dirtyRegA)]).map (fun c => (c.id, c.key, c.newValue)) ∧
    (ctxSaveAllCore (fun _ _ => false) [("A", dirtyRegA)] midFlightLive false).outcome =
      .completed :=
  saveAll_completion_marks_all_clean (fun _ _ => false) [("A", dirtyRegA)] midFlightLive
    (by decide) (by decide)

/-- C5 counterexample: with two dirty keys across two registrations and the
persist call for ("A", "a") failing, the provider saveAll aborts the whole
loop: the dirty pair ("B", "b") is never attempted, nothing succeeds, no
failure list reaches the caller (the function returns void), and no
sourceConfig changes — every key remains dirty. -/
theorem saveAll_aborts_on_first_failure :
    unsavedChangesOf twoDirtySnapshot =
      [{ id := "A", key := "a", oldValue := some (.num 1), newValue := .num 2 },
       { id := "B", key := "b", oldValue := some (.num 1), newValue := .num 3 }] ∧
    (ctxSaveAllCore failsOnA twoDirtySnapshot twoDirtySnapshot false).attempted = [("A", "a")] ∧
    (ctxSaveAllCore failsOnA twoDirtySnapshot twoDirtySnapshot false).saved = [] ∧
    (ctxSaveAllCore failsOnA twoDirtySnapshot twoDirtySnapshot false).regs = twoDirtySnapshot ∧
    (ctxSaveAllCore failsOnA twoDirtySnapshot twoDirtySnapshot false).outcome = .errored := by
  decide

/-- Unfolding of the per-registration MCP save loop: it attempts exactly the
dirty properties, counting successes and collecting failures. -/
theorem mcpSaveProps_spec (persistFails : String → String → Bool) (id : String) :
    ∀ (ps : List StoredProp) (acc : McpSaveResult),
      mcpSaveProps persistFails id acc ps =
        { savedCount := acc.savedCount +
            (((ps.filter mcpPropDirty).map (fun p => (id, p.key))).filter
              (fun pr => !(persistFails pr.1 pr.2))).length,
          errors := acc.errors ++
            ((ps.filter mcpPropDirty).map (fun p => (id, p.key))).filter
              (fun pr => persistFails pr.1 pr.2),
          attempted := acc.attempted ++ (ps.filter mcpPropDirty).map (fun p => (id, p.key)) } := by
  intro ps
  induction ps with
  | nil => intro acc; simp [mcpSaveProps]
  | cons p rest ih =>
    intro acc
    by_cases hd : mcpPropDirty p
    · by_cases hf : persistFails id p.key
      · simp [mcpSaveProps, hd, hf, ih]
      · simp [mcpSaveProps, hd, hf, ih, Nat.add_assoc, Nat.add_comm]
    · simp [mcpSaveProps, hd, ih]

/-- Unfolding of the MCP save-all fold over registrations. -/
theorem mcpSaveAll_fold (persistFails : String → String → Bool) :
    ∀ (rs : List StoredRegistration) (acc : McpSaveResult),
      rs.foldl (fun a r => mcpSaveProps persistFails r.id a r.properties) acc =
        { savedCount := acc.savedCount +
            ((rs.flatMap (fun r => (r.properties.filter mcpPropDirty).map
                (fun p => (r.id, p.key)))).filter
              (fun pr => !(persistFails pr.1 pr.2))).length,
          errors := acc.errors ++
            (rs.flatMap (fun r => (r.properties.filter mcpPropDirty).map
                (fun p => (r.id, p.key)))).filter (fun pr => persistFails pr.1 pr.2),
          attempted := acc.attempted ++
            rs.flatMap (fun r => (r.properties.filter mcpPropDirty).map
              (fun p => (r.id, p.key))) } := by
  intro rs
  induction rs with
  | nil => intro acc; simp
  | cons r rest ih =>
    intro acc
    simp only [List.foldl_cons]
    rw [mcpSaveProps_spec, ih]
    simp [List.flatMap_cons, List.filter_append, Nat.add_assoc, List.append_assoc]

/-- C5 amended: per-key independence holds for the MCP tangent_save_all tool
but not for the provider saveAll.  The MCP tool attempts every dirty
(registrationId, key) pair regardless of failures elsewhere, and reports the
count of successes plus one error entry per failed pair.  The provider
saveAll, by contrast, aborts its loop at the first failing persist call and
leaves every sourceConfig untouched, so even keys whose persist succeeded
remain dirty, and no per-key failure list is returned to the caller. -/
theorem saveAll_independence_split :
    (∀ (persistFails : String → String → Bool) (regs : List StoredRegistration),
      (mcpSaveAll persistFails regs).attempted = mcpDirtyPairs regs ∧
      (mcpSaveAll persistFails regs).savedCount =
        ((mcpDirtyPairs regs).filter (fun pr => !(persistFails pr.1 pr.2))).length ∧
      (mcpSaveAll persistFails regs).errors =
        (mcpDirtyPairs regs).filter (fun pr => persistFails pr.1 pr.2)) ∧
    (∀ (persistFails : String → String → Bool)
        (snapshot live : List (String × Registration)),
      (ctxSaveAllCore persistFails snapshot live false).outcome = .errored →
      (ctxSaveAllCore persistFails snapshot live false).regs = live) := by
  constructor
  · intro persistFails regs
    refine ⟨?_, ?_, ?_⟩ <;>
      simp [mcpSaveAll, mcpSaveAll_fold, mcpDirtyPairs]
  · intro persistFails snapshot live h
    by_cases hemp : (unsavedChangesOf snapshot).isEmpty
    · simp [ctxSaveAllCore, hemp] at h
    · by_cases hok : (ctxSaveLoop persistFails snapshot (unsavedChangesOf snapshot)).2.2
      · simp [ctxSaveAllCore, hemp, hok] at h
      · simp [ctxSaveAllCore, hemp, hok]

/-- C5 amended, witnessed at a concrete input: the errored provider run of
the two-dirty-keys scenario leaves the registrations Map untouched. -/
theorem saveAll_independence_split_witness :
    (ctxSaveAllCore failsOnA twoDirtySnapshot midFlightLive false).regs = midFlightLive :=
  saveAll_independence_split.2 failsOnA twoDirtySnapshot midFlightLive (by decide)

/-- C6 amended: updateValue signals no NotFound.  With an unknown
registration id the call silently leaves the registrations Map, the history
stacks and the event log unchanged, and when that id has no stored-config
entry either, the stored config is also unchanged (the write is dropped
everywhere); with an unknown key on a known registration the key is added to
currentConfig with the new value and a value.changed event with undefined
oldValue is emitted — keys are dynamically extensible rather than fixed at
registration time. -/
theorem updateValue_unknown_target
    (st : CtxState) (id key : String) (v : TValue) (skip : Bool) (now : Nat) :
    (alGet st.regs id = none →
      (ctxUpdateValue st id key v skip now).regs = st.regs ∧
      (ctxUpdateValue st id key v skip now).busEvents = st.busEvents ∧
      (ctxUpdateValue st id key v skip now).undoStack = st.undoStack ∧
      (ctxUpdateValue st id key v skip now).redoStack = st.redoStack ∧
      (alGet st.storedCfg id = none →
        (ctxUpdateValue st id key v skip now).storedCfg = st.storedCfg)) ∧
    (∀ reg, alGet st.regs id = some reg → alGet reg.currentConfig key = none →
      (ctxUpdateValue st id key v skip now).busEvents = st.busEvents ++
        [{ eventType := "value.changed", timestamp := now, sequence := st.busSeq + 1,
           source := .human,
           payload := .valueChanged id reg.filePath key none v (detectValueType v key) }] ∧
      (ctxUpdateValue st id key v skip now).regs =
        alSet st.regs id { reg with currentConfig := alSet reg.currentConfig key v } ∧
      (ctxUpdateValue st id key v skip now).undoStack = st.undoStack ∧
      (ctxUpdateValue st id key v skip now).redoStack = st.redoStack) := by
  constructor
  · intro h
    refine ⟨?_, ?_, ?_, ?_, ?_⟩
    · simp [ctxUpdateValue, h]
    · simp [ctxUpdateValue, h]
    · simp [ctxUpdateValue, h]
    · simp [ctxUpdateValue, h]
    · intro hstore
      simp [ctxUpdateValue, h, updateStoredConfig, hstore]
  · intro reg hreg hkey
    refine ⟨?_, ?_, ?_, ?_⟩ <;> simp [ctxUpdateValue, ctxEmit, hreg, hkey]

/-- C6 counterexample: updating the unknown key "margin" on the known
registration "hero" is no NotFound no-op: it appends a value.changed event
and adds the key to currentConfig. -/
theorem unknown_key_appends_event :
    (ctxUpdateValue heroState "hero" "margin" (.num 5) false 3).busEvents.length = 1 ∧
    ((alGet (ctxUpdateValue heroState "hero" "margin" (.num 5) false 3).regs "hero").map
      (fun r => alGet r.currentConfig "margin")) = some (some (.num 5)) := by
  decide

/-- C6 amended, witnessed at a concrete input: updating under the unknown id
"ghost" leaves the event log unchanged, and since "ghost" has no stored
entry, the stored config is unchanged too. -/
theorem updateValue_unknown_target_witness :
    (ctxUpdateValue heroState "ghost" "padding" (.num 1) false 4).busEvents =
      heroState.busEvents ∧
    (ctxUpdateValue heroState "ghost" "padding" (.num 1) false 4).storedCfg =
      heroState.storedCfg :=
  ⟨((updateValue_unknown_target heroState "ghost" "padding" (.num 1) false 4).1
      (by decide)).2.1,
   ((updateValue_unknown_target heroState "ghost" "padding" (.num 1) false 4).1
      (by decide)).2.2.2.2 (by decide)⟩

/-- C7 amended: every register call — first mount or remount alike — emits a
registration.added event.  When the id is absent from the module store,
current = source = the declared defaults; when present (a remount), the
currentConfig is restored from the stored config, preserving live edits, but
the sourceConfig is reset to the declared defaults rather than preserved. -/
theorem register_always_emits_and_resets_source
    (st : CtxState) (r : RegistrationInput) (now : Nat) :
    ((ctxRegister st r now).busEvents.length = st.busEvents.length + 1 ∧
     ((ctxRegister st r now).busEvents.getLast?).map (fun e => e.eventType) =
       some "registration.added") ∧
    (getStoredConfig st.storedCfg r.id = none →
      alGet (ctxRegister st r now).regs r.id =
        some { filePath := r.filePath, originalConfig := r.originalConfig,
               currentConfig := r.originalConfig, sourceConfig := r.originalConfig }) ∧
    (∀ c, getStoredConfig st.storedCfg r.id = some c →
      alGet (ctxRegister st r now).regs r.id =
        some { filePath := r.filePath, originalConfig := r.originalConfig,
               currentConfig := c, sourceConfig := r.originalConfig }) := by
  refine ⟨⟨?_, ?_⟩, ?_, ?_⟩
  · simp [ctxRegister, ctxEmit]
  · simp [ctxRegister, ctxEmit]
  · intro h
    simp [ctxRegister, ctxEmit, h, alGet_alSet_self]
  · intro c h
    simp [ctxRegister, ctxEmit, h, alGet_alSet_self]

/-- C7 counterexample: a concrete remount run.  After registering with
default padding 60, editing to 80 and saving (source becomes 80),
re-registering the same id preserves current = 80 but resets source to the
declared default 60 instead of the preserved 80, and emits a second
registration.added event even though the id was already present. -/
theorem remount_resets_source_and_reemits :
    ((alGet remount3.regs "hero").map (fun r => alGet r.sourceConfig "padding")) =
      some (some (.num 80)) ∧
    ((alGet remount4.regs "hero").map
      (fun r => (alGet r.currentConfig "padding", alGet r.sourceConfig "padding"))) =
      some (some (.num 80), some (.num 60)) ∧
    (remount4.busEvents.filter (fun e => e.eventType = "registration.added")).length = 2 := by
  decide

/-- C7 amended, witnessed at a concrete input: re-registering "hero" after
its source had been saved at 80 restores current 80 from the store but
resets source to the declared default 60. -/
theorem register_always_emits_and_resets_source_witness :
    alGet (ctxRegister remount3 heroInput 4).regs "hero" =
      some { filePath := "src/Hero.tsx", originalConfig := [("padding", .num 60)],
             currentConfig := [("padding", .num 80)], sourceConfig := [("padding", .num 60)] } :=
  (register_always_emits_and_resets_source remount3 heroInput 4).2.2
    [("padding", .num 80)] (by decide)

/-- C8: calling updateValue on a known registration whose current value for
the key already equals the new value is a no-op as specified: no event is
appended and no history entry is pushed (both stacks unchanged), for either
value of the skipHistory flag. -/
theorem updateValue_equal_is_noop
    (st : CtxState) (id key : String) (v : TValue) (skip : Bool) (now : Nat)
    (reg : Registration) (hreg : alGet st.regs id = some reg)
    (hcur : alGet reg.currentConfig key = some v) :
    (ctxUpdateValue st id key v skip now).busEvents = st.busEvents ∧
    (ctxUpdateValue st id key v skip now).undoStack = st.undoStack ∧
    (ctxUpdateValue st id key v skip now).redoStack = st.redoStack := by
  refine ⟨?_, ?_, ?_⟩ <;> simp [ctxUpdateValue, hreg, hcur]

/-- C8 witnessed at a concrete input: rewriting padding 60 over padding 60
appends nothing to the event log. -/
theorem updateValue_equal_is_noop_witness :
    (ctxUpdateValue heroState "hero" "padding" (.num 60) false 9).busEvents =
      heroState.busEvents :=
  (updateValue_equal_is_noop heroState "hero" "padding" (.num 60) false 9 heroReg
    (by decide) (by decide)).1

end Tangent
